import Mathlib

/-!
Verification model of `vk_album_downloader.py`.

The program is a two-phase pipeline: a paginated scrape loop
(`AlbumScraper.scrape_all_urls`) that accumulates resource URLs with
checkpointing and dedup, and a bounded-concurrency download phase
(`AlbumScraper.download_all` / `download_one`) with per-resource retry and
failure isolation.

The embedding is shallow: network fetches become explicit functions passed
in (page fetch: offset and attempt number to a result; resource fetch: URL
and attempt number to a result), file-system state becomes explicit record
fields, and the `while True` scrape loop becomes fuel-indexed recursion
(returning `none` when the fuel is exhausted before the loop exits).
-/

namespace VK

/-- Error classes relevant to the two `AsyncRetrying` call sites:
`httpx.HTTPError`, `asyncio.TimeoutError`, and any other exception
(non-transient, e.g. a write error). -/
inductive FetchError where
  | httpError
  | asyncioTimeout
  | other
deriving DecidableEq

/-- Decidable equality for `Except`, used to evaluate concrete runs. -/
instance instDecEqExcept {ε α : Type} [DecidableEq ε] [DecidableEq α] :
    DecidableEq (Except ε α)
  | Except.error e, Except.error f =>
    if h : e = f then isTrue (congrArg Except.error h)
    else isFalse (fun hh => h (Except.error.inj hh))
  | Except.error _, Except.ok _ => isFalse (fun hh => Except.noConfusion hh)
  | Except.ok _, Except.error _ => isFalse (fun hh => Except.noConfusion hh)
  | Except.ok a, Except.ok b =>
    if h : a = b then isTrue (congrArg Except.ok h)
    else isFalse (fun hh => h (Except.ok.inj hh))

/-- The knobs of one `tenacity.AsyncRetrying(...)` construction:
`wait_random_exponential(multiplier, max)`, `stop_after_attempt`,
the two `retry_if_exception_type` classes that may be or-ed in,
and `reraise`. -/
structure RetryConfig where
  waitMultiplier : Nat
  waitMax : Nat
  maxAttempts : Nat
  retryHTTPError : Bool
  retryAsyncioTimeout : Bool
  reraise : Bool
deriving DecidableEq

/-- The `AsyncRetrying` configuration in `AlbumScraper.fetch_batch`
(lines 123-131): `wait_random_exponential(multiplier=1, max=20)`,
`stop_after_attempt(3)`, retry on `httpx.HTTPError` or
`asyncio.TimeoutError`, `reraise=True`. -/
def fetchBatchRetry : RetryConfig :=
  { waitMultiplier := 1
    waitMax := 20
    maxAttempts := 3
    retryHTTPError := true
    retryAsyncioTimeout := true
    reraise := true }

/-- The `AsyncRetrying` configuration in `AlbumScraper.download_one`
(lines 218-223): `wait_random_exponential(multiplier=1, max=10)`,
`stop_after_attempt(3)`, retry on `httpx.HTTPError` only,
`reraise=True`. -/
def downloadOneRetry : RetryConfig :=
  { waitMultiplier := 1
    waitMax := 10
    maxAttempts := 3
    retryHTTPError := true
    retryAsyncioTimeout := false
    reraise := true }

/-- Whether a raised error is matched by the configuration's
`retry_if_exception_type` predicate. -/
def isRetryable (c : RetryConfig) : FetchError → Bool
  | FetchError.httpError => c.retryHTTPError
  | FetchError.asyncioTimeout => c.retryAsyncioTimeout
  | FetchError.other => false

/-- One run of an `AsyncRetrying` loop, attempts numbered from `k`,
with `fuel` further attempts allowed after the current one.
Returns the final outcome together with the number of the attempt on
which the loop stopped.  A non-retryable error escapes at once; with
`reraise=True` the last error is re-raised after the attempt budget is
spent. -/
def runRetryGo (c : RetryConfig) (op : Nat → Except FetchError α) :
    Nat → Nat → Except FetchError α × Nat
  | 0, k =>
    match op k with
    | Except.ok a => (Except.ok a, k)
    | Except.error e => (Except.error e, k)
  | Nat.succ f, k =>
    match op k with
    | Except.ok a => (Except.ok a, k)
    | Except.error e =>
      if isRetryable c e then runRetryGo c op f (k + 1)
      else (Except.error e, k)

/-- Execute an operation under a retry configuration: first attempt is
attempt 1, and `stop_after_attempt(maxAttempts)` allows `maxAttempts - 1`
retries after it. -/
def runRetry (c : RetryConfig) (op : Nat → Except FetchError α) :
    Except FetchError α × Nat :=
  runRetryGo c op (c.maxAttempts - 1) 1

/-- `AlbumScraper.fetch_batch` at one offset, abstracted over the network:
`pageOp k` is the outcome of the k-th POST attempt (the retry-wrapped part
of lines 123-137).  Response parsing is left to the page operation, which
already returns the extracted URL list. -/
def fetch_batch (pageOp : Nat → Except FetchError (List String)) :
    Except FetchError (List String) × Nat :=
  runRetry fetchBatchRetry pageOp

/-- The `Settings` dataclass (floating-point delay bounds are not part of
the model; they only feed `asyncio.sleep`). -/
structure Settings where
  offset_step : Nat
  concurrent_downloads : Nat
  url_suffix_to_remove : String
deriving DecidableEq

/-- The module-level `SETTINGS: Final = Settings()` instance. -/
def SETTINGS : Settings :=
  { offset_step := 40
    concurrent_downloads := 8
    url_suffix_to_remove := "&from=bu&cs=240x0" }

/-- Python string comparison is lexicographic on code points; this is the
executable comparison on the underlying character lists. -/
def charListLe : List Char → List Char → Bool
  | [], _ => true
  | _ :: _, [] => false
  | a :: as, b :: bs =>
    if a.toNat < b.toNat then true
    else if b.toNat < a.toNat then false
    else charListLe as bs

/-- Lexicographic (code-point) order on strings, as Python `sorted` uses. -/
def strLe (a b : String) : Bool :=
  charListLe a.data b.data

/-- `set(...)` membership collapse: keep the first occurrence of every
string, drop later repeats. -/
def dedupList : List String → List String
  | [] => []
  | a :: as => a :: (dedupList as).filter (fun b => decide (b ≠ a))

/-- `sorted(set(l))` from line 196: deduplicate, then sort
lexicographically. -/
def dedupSort (l : List String) : List String :=
  List.insertionSort (fun a b => strLe a b = true) (dedupList l)

/-- State of one `scrape_all_urls` run: the pagination cursor, the
in-memory accumulated list `all_urls`, the contents of the on-disk
checkpoint file `scraped_urls.txt` (one URL per line), and the offsets at
which a page fetch completed, in order. -/
structure ScrapeState where
  offset : Nat
  allUrls : List String
  checkpointLog : List String
  fetched : List Nat
deriving DecidableEq

/-- The `while True` loop of `scrape_all_urls` (lines 171-193), fuel
indexed.  Each iteration: fetch the batch at the current offset (an error
propagates, aborting the scrape), keep the batch's URLs that are non-empty
and not already accumulated, exit if nothing is new past the first page,
otherwise extend `all_urls` and the checkpoint with the new URLs, exit if
the very first page was empty, else advance the offset by
`SETTINGS.offset_step` and continue. -/
def scrapeLoop (fetch : Nat → Except FetchError (List String)) :
    Nat → ScrapeState → Option (Except FetchError ScrapeState)
  | 0, _ => none
  | Nat.succ fuel, s =>
    match fetch s.offset with
    | Except.error e => some (Except.error e)
    | Except.ok batch =>
      let s1 : ScrapeState := { s with fetched := s.fetched ++ [s.offset] }
      let newUrls := batch.filter (fun u => decide (u ≠ "" ∧ u ∉ s1.allUrls))
      if newUrls = [] ∧ 0 < s1.offset then some (Except.ok s1)
      else
        let s2 : ScrapeState :=
          if newUrls = [] then s1
          else { s1 with
                 allUrls := s1.allUrls ++ newUrls
                 checkpointLog := s1.checkpointLog ++ newUrls }
        if batch = [] ∧ s2.offset = 0 then some (Except.ok s2)
        else scrapeLoop fetch fuel { s2 with offset := s2.offset + SETTINGS.offset_step }

/-- `AlbumScraper.scrape_all_urls` (lines 160-198): seed `all_urls` with
the checkpoint file's (already stripped) lines, run the loop from offset
0, and return `sorted(set(all_urls))` together with the final state.
`none` means the loop did not exit within the given fuel. -/
def scrape_all_urls (fetch : Nat → Except FetchError (List String)) (fuel : Nat)
    (checkpoint : List String) : Option (Except FetchError (List String × ScrapeState)) :=
  let s0 : ScrapeState :=
    { offset := 0, allUrls := checkpoint, checkpointLog := checkpoint, fetched := [] }
  match scrapeLoop fetch fuel s0 with
  | none => none
  | some (Except.error e) => some (Except.error e)
  | some (Except.ok s) => some (Except.ok (dedupSort s.allUrls, s))

/-- Decimal digits of a number, fuel indexed (the fuel `n + 1` always
suffices). -/
def natDigits : Nat → Nat → List Char
  | 0, _ => []
  | Nat.succ f, n =>
    if n < 10 then [Char.ofNat (48 + n)]
    else natDigits f (n / 10) ++ [Char.ofNat (48 + n % 10)]

/-- Decimal representation of a natural number. -/
def natRepr (n : Nat) : String :=
  String.mk (natDigits (n + 1) n)

/-- Python `f"[index:04d]"` for a non-negative index: the decimal digits,
left padded with zeros to at least four characters. -/
def pad4 (i : Nat) : String :=
  let s := natRepr i
  if s.length < 4 then String.mk (List.replicate (4 - s.length) '0') ++ s else s

/-- Characters before the first occurrence of `c` (the whole list when `c`
is absent); models `url.split(sep, 1)[0]`. -/
def takeUntil (c : Char) : List Char → List Char
  | [] => []
  | a :: as => if a = c then [] else a :: takeUntil c as

/-- Split a character list on every occurrence of `c`. -/
def splitOnChar (c : Char) : List Char → List (List Char)
  | [] => [[]]
  | a :: as =>
    let r := splitOnChar c as
    if a = c then [] :: r
    else
      match r with
      | g :: gs => (a :: g) :: gs
      | [] => [[a]]

/-- Index of the last occurrence of `c`, models `str.rfind`. -/
def lastIndexOf (c : Char) (l : List Char) : Option Nat :=
  (List.range l.length).foldl
    (fun acc i => if l.get? i = some c then some i else acc) none

/-- `pathlib`'s `suffix` of a final path component `name`: the slice from
the last dot when that dot is neither first nor last character, else
empty. -/
def pathSuffix (name : List Char) : List Char :=
  match lastIndexOf '.' name with
  | some i => if 0 < i ∧ i + 1 < name.length then name.drop i else []
  | none => []

/-- Line 207: `Path(url.split('?', 1)[0]).suffix or '.jpg'`.  The final
path component is the last non-empty slash-separated segment (as
`pathlib` drops empty segments for URL-shaped inputs). -/
def fileExtOf (url : String) : String :=
  let beforeQuery := takeUntil '?' url.data
  let comps := splitOnChar '/' beforeQuery
  let name := (comps.filter (fun g => decide (g ≠ []))).getLastD []
  let s := pathSuffix name
  if s = [] then ".jpg" else String.mk s

/-- Lines 207-209: destination filename for a URL at a 1-based index. -/
def destFilename (url : String) (index : Nat) : String :=
  pad4 index ++ fileExtOf url

/-- Download-phase state: files on disk (path and content, in write
order), the lines of `failed_downloads.txt`, and the (index, URL) pairs
for which a network GET was actually issued, in order. -/
structure DlState where
  files : List (String × String)
  failedLog : List String
  fetched : List (Nat × String)
deriving DecidableEq

/-- The paths currently present on disk. -/
def pathsOf (files : List (String × String)) : List String :=
  files.map (fun p => p.1)

/-- `AlbumScraper.download_one` (lines 206-237), abstracted over the
network: `fetchOp url k` is the outcome of the k-th GET attempt for this
URL.  If the destination file already exists the function returns at once
(no fetch, no write, no failure entry); otherwise the GET runs under the
resource retry policy, a success writes the body to the destination, and
any error is appended to the failure log (the surrounding
`except Exception` swallows it, so nothing propagates). -/
def download_one (fetchOp : String → Nat → Except FetchError String)
    (url : String) (index : Nat) (st : DlState) : DlState :=
  let filename := destFilename url index
  if filename ∈ pathsOf st.files then st
  else
    match runRetry downloadOneRetry (fetchOp url) with
    | (Except.ok body, _) =>
      { st with
        files := st.files ++ [(filename, body)]
        fetched := st.fetched ++ [(index, url)] }
    | (Except.error _, _) =>
      { st with
        failedLog := st.failedLog ++ [url]
        fetched := st.fetched ++ [(index, url)] }

/-- `enumerate(urls, 1)`: pair each element with its index, starting at
`n`. -/
def enumFrom : Nat → List α → List (Nat × α)
  | _, [] => []
  | n, a :: as => (n, a) :: enumFrom (n + 1) as

/-- Sequential composition of the per-URL tasks.  The tasks own disjoint
destination paths (distinct indices) and every shared append is atomic,
so the final state of the concurrent `asyncio.gather` run is that of the
sequential fold; the scheduling itself is modelled separately by
`ConcStep`. -/
def downloadList (fetchOp : String → Nat → Except FetchError String) :
    List (Nat × String) → DlState → DlState
  | [], st => st
  | (i, u) :: rest, st => downloadList fetchOp rest (download_one fetchOp u i st)

/-- `AlbumScraper.download_all` (lines 239-245): one task per URL,
indices from `enumerate(urls, 1)`. -/
def download_all (fetchOp : String → Nat → Except FetchError String)
    (urls : List String) (st : DlState) : DlState :=
  downloadList fetchOp (enumFrom 1 urls) st

/-- Durable state threaded through whole pipeline runs: the checkpoint
file, the disk, the failure log, and the observed page/resource fetches
(accumulated across runs). -/
structure PipeState where
  checkpointFile : List String
  files : List (String × String)
  failedLog : List String
  pagesFetched : List Nat
  urlsFetched : List (Nat × String)
deriving DecidableEq

/-- One run of `async_main`'s core (lines 278-285): scrape, then — unless
the scraped list is empty — download it. -/
def run_pipeline (fetch : Nat → Except FetchError (List String))
    (fetchOp : String → Nat → Except FetchError String) (fuel : Nat)
    (st : PipeState) : Option (Except FetchError PipeState) :=
  match scrape_all_urls fetch fuel st.checkpointFile with
  | none => none
  | some (Except.error e) => some (Except.error e)
  | some (Except.ok (urls, s)) =>
    if urls = [] then
      some (Except.ok
        { st with
          checkpointFile := s.checkpointLog
          pagesFetched := st.pagesFetched ++ s.fetched })
    else
      let d := download_all fetchOp urls
        { files := st.files, failedLog := st.failedLog, fetched := st.urlsFetched }
      some (Except.ok
        { checkpointFile := s.checkpointLog
          files := d.files
          failedLog := d.failedLog
          pagesFetched := st.pagesFetched ++ s.fetched
          urlsFetched := d.fetched })

/-- Concatenation, in visit order, of the batches of the first `n` pages
of a simulated source (`page off` is the batch the source serves at
pagination offset `off`; the loop visits offsets `0, 40, ..., 40*(n-1)`). -/
def pagesJoin (page : Nat → List String) : Nat → List String
  | 0 => []
  | Nat.succ n => pagesJoin page n ++ page (40 * n)

/-- The offsets of the first `n` page fetches: `[0, 40, ..., 40*(n-1)]`. -/
def pageOffsets : Nat → List Nat
  | 0 => []
  | Nat.succ n => pageOffsets n ++ [40 * n]

/-- How many files on disk occupy a given path. -/
def countPath (files : List (String × String)) (p : String) : Nat :=
  (pathsOf files).count p

/-- Phase of one download task with respect to the semaphore of
`download_all`: not yet scheduled; suspended in `async with sem`; holding
a slot (its GET is in flight); finished (skip, success, or logged
failure). -/
inductive TaskPhase where
  | notStarted
  | waiting
  | inFlight
  | finished
deriving DecidableEq

/-- Scheduler state of the download phase: free semaphore slots plus the
phase of every task launched by `asyncio.gather`. -/
structure ConcState where
  avail : Nat
  tasks : List TaskPhase
deriving DecidableEq

/-- Number of tasks whose fetch is in flight. -/
def countFlight : List TaskPhase → Nat
  | [] => 0
  | t :: ts => (if t = TaskPhase.inFlight then 1 else 0) + countFlight ts

/-- One cooperative-scheduler step of the download phase.  A task may:
finish immediately because its destination file exists (before touching
the semaphore, lines 211-213); reach `async with sem` and suspend; acquire
a free slot and start its fetch (line 215); or complete its slot-holding
section, releasing the slot whatever the outcome. -/
inductive ConcStep : ConcState → ConcState → Prop
  | skipExisting (s : ConcState) (i : Nat)
      (h : s.tasks.get? i = some TaskPhase.notStarted) :
      ConcStep s { s with tasks := s.tasks.set i TaskPhase.finished }
  | beginWait (s : ConcState) (i : Nat)
      (h : s.tasks.get? i = some TaskPhase.notStarted) :
      ConcStep s { s with tasks := s.tasks.set i TaskPhase.waiting }
  | acquire (s : ConcState) (i : Nat)
      (h : s.tasks.get? i = some TaskPhase.waiting) (ha : 0 < s.avail) :
      ConcStep s { avail := s.avail - 1, tasks := s.tasks.set i TaskPhase.inFlight }
  | release (s : ConcState) (i : Nat)
      (h : s.tasks.get? i = some TaskPhase.inFlight) :
      ConcStep s { avail := s.avail + 1, tasks := s.tasks.set i TaskPhase.finished }

/-- The initial scheduler state for `n` URLs under semaphore capacity
`cap`. -/
def initConc (cap n : Nat) : ConcState :=
  { avail := cap, tasks := List.replicate n TaskPhase.notStarted }

/-- States reachable by the download-phase scheduler from the initial
state. -/
inductive ConcReach (cap n : Nat) : ConcState → Prop
  | init : ConcReach cap n (initConc cap n)
  | step {s s' : ConcState} : ConcReach cap n s → ConcStep s s' → ConcReach cap n s'

/-! ### Order and deduplication lemmas -/

lemma charListLe_total : ∀ (x y : List Char), charListLe x y = true ∨ charListLe y x = true
  | [], _ => Or.inl rfl
  | _ :: _, [] => Or.inr rfl
  | a :: as, b :: bs => by
    simp only [charListLe]
    rcases Nat.lt_trichotomy a.toNat b.toNat with h | h | h
    · simp [h]
    · have hab : ¬ a.toNat < b.toNat := by omega
      have hba : ¬ b.toNat < a.toNat := by omega
      simpa [hab, hba] using charListLe_total as bs
    · have hab : ¬ a.toNat < b.toNat := by omega
      simp [hab, h]

lemma charListLe_trans : ∀ (x y z : List Char),
    charListLe x y = true → charListLe y z = true → charListLe x z = true
  | [], _, _, _, _ => rfl
  | _ :: _, [], _, h1, _ => by simp [charListLe] at h1
  | _ :: _, _ :: _, [], _, h2 => by simp [charListLe] at h2
  | a :: as, b :: bs, c :: cs, h1, h2 => by
    simp only [charListLe] at h1 h2 ⊢
    rcases Nat.lt_trichotomy a.toNat b.toNat with hab | hab | hab
    · rcases Nat.lt_trichotomy b.toNat c.toNat with hbc | hbc | hbc
      · simp [show a.toNat < c.toNat from by omega]
      · simp [show a.toNat < c.toNat from by omega]
      · simp [show ¬ b.toNat < c.toNat from by omega, hbc] at h2
    · rcases Nat.lt_trichotomy b.toNat c.toNat with hbc | hbc | hbc
      · simp [show a.toNat < c.toNat from by omega]
      · simp only [show ¬ a.toNat < b.toNat from by omega,
          show ¬ b.toNat < a.toNat from by omega, if_false, ite_false] at h1
        simp only [show ¬ b.toNat < c.toNat from by omega,
          show ¬ c.toNat < b.toNat from by omega, if_false, ite_false] at h2
        have hac : ¬ a.toNat < c.toNat := by omega
        have hca : ¬ c.toNat < a.toNat := by omega
        simpa [hac, hca] using charListLe_trans as bs cs h1 h2
      · simp [show ¬ b.toNat < c.toNat from by omega, hbc] at h2
    · simp [show ¬ a.toNat < b.toNat from by omega, hab] at h1

instance strLeIsTotal : IsTotal String (fun a b => strLe a b = true) :=
  ⟨fun a b => charListLe_total a.data b.data⟩

instance strLeIsTrans : IsTrans String (fun a b => strLe a b = true) :=
  ⟨fun a b c => charListLe_trans a.data b.data c.data⟩

lemma mem_dedupList (a : String) : ∀ (l : List String), a ∈ dedupList l ↔ a ∈ l
  | [] => Iff.rfl
  | b :: bs => by
    simp only [dedupList, List.mem_cons, List.mem_filter, decide_eq_true_eq]
    constructor
    · rintro (rfl | ⟨h, _⟩)
      · exact Or.inl rfl
      · exact Or.inr ((mem_dedupList a bs).mp h)
    · rintro (rfl | h)
      · exact Or.inl rfl
      · by_cases hb : a = b
        · exact Or.inl hb
        · exact Or.inr ⟨(mem_dedupList a bs).mpr h, hb⟩

lemma nodup_dedupList : ∀ (l : List String), (dedupList l).Nodup
  | [] => List.nodup_nil
  | b :: bs => by
    refine List.nodup_cons.mpr ⟨?_, List.Nodup.filter _ (nodup_dedupList bs)⟩
    intro hmem
    have := List.of_mem_filter hmem
    simp at this

lemma mem_dedupSort (a : String) (l : List String) : a ∈ dedupSort l ↔ a ∈ l := by
  unfold dedupSort
  rw [List.Perm.mem_iff (List.perm_insertionSort _ _)]
  exact mem_dedupList a l

lemma nodup_dedupSort (l : List String) : (dedupSort l).Nodup :=
  (List.perm_insertionSort _ _).nodup_iff.mpr (nodup_dedupList l)

lemma sorted_dedupSort (l : List String) :
    (dedupSort l).Sorted (fun a b => strLe a b = true) :=
  List.sorted_insertionSort _ _

lemma dedupSort_ne_nil {l : List String} (h : l ≠ []) : dedupSort l ≠ [] := by
  intro hc
  rcases l with _ | ⟨a, as⟩
  · exact h rfl
  · have ha : a ∈ dedupSort (a :: as) := (mem_dedupSort a _).mpr (List.mem_cons_self a as)
    rw [hc] at ha
    exact List.not_mem_nil a ha

/-! ### Retry-policy lemmas -/

lemma runRetryGo_ok {α : Type} (c : RetryConfig) (op : Nat → Except FetchError α)
    (fuel k : Nat) (b : α) (h : op k = Except.ok b) :
    runRetryGo c op fuel k = (Except.ok b, k) := by
  cases fuel <;> simp [runRetryGo, h]

lemma runRetryGo_err_retry {α : Type} (c : RetryConfig) (op : Nat → Except FetchError α)
    (f k : Nat) (e : FetchError) (h : op k = Except.error e)
    (hr : isRetryable c e = true) :
    runRetryGo c op (Nat.succ f) k = runRetryGo c op f (k + 1) := by
  simp [runRetryGo, h, hr]

lemma runRetryGo_err_stop {α : Type} (c : RetryConfig) (op : Nat → Except FetchError α)
    (f k : Nat) (e : FetchError) (h : op k = Except.error e)
    (hr : isRetryable c e = false) :
    runRetryGo c op (Nat.succ f) k = (Except.error e, k) := by
  simp [runRetryGo, h, hr]

lemma runRetryGo_zero_err {α : Type} (c : RetryConfig) (op : Nat → Except FetchError α)
    (k : Nat) (e : FetchError) (h : op k = Except.error e) :
    runRetryGo c op 0 k = (Except.error e, k) := by
  simp [runRetryGo, h]

lemma runRetry_first_ok {α : Type} (c : RetryConfig) (op : Nat → Except FetchError α)
    (b : α) (h : op 1 = Except.ok b) : runRetry c op = (Except.ok b, 1) :=
  runRetryGo_ok c op (c.maxAttempts - 1) 1 b h

/-- A page-fetch operation that always fails with one retryable error is
attempted exactly three times, after which that error is the outcome. -/
lemma runRetry_fetchBatch_all_error {α : Type} (op : Nat → Except FetchError α)
    (e : FetchError) (hr : isRetryable fetchBatchRetry e = true)
    (h : ∀ k, op k = Except.error e) :
    runRetry fetchBatchRetry op = (Except.error e, 3) := by
  have step1 : runRetry fetchBatchRetry op = runRetryGo fetchBatchRetry op 1 2 :=
    runRetryGo_err_retry fetchBatchRetry op 1 1 e (h 1) hr
  have step2 : runRetryGo fetchBatchRetry op 1 2 = runRetryGo fetchBatchRetry op 0 3 :=
    runRetryGo_err_retry fetchBatchRetry op 0 2 e (h 2) hr
  rw [step1, step2, runRetryGo_zero_err fetchBatchRetry op 3 e (h 3)]

/-- A resource fetch that fails on every attempt (with whatever error
classes) ends in an error outcome under the download retry policy. -/
lemma runRetry_dl_all_error {α : Type} (op : Nat → Except FetchError α)
    (h : ∀ k, ∃ e, op k = Except.error e) :
    ∃ e k, runRetry downloadOneRetry op = (Except.error e, k) := by
  obtain ⟨e1, h1⟩ := h 1
  obtain ⟨e2, h2⟩ := h 2
  obtain ⟨e3, h3⟩ := h 3
  show ∃ e k, runRetryGo downloadOneRetry op 2 1 = (Except.error e, k)
  by_cases r1 : isRetryable downloadOneRetry e1 = true
  · rw [runRetryGo_err_retry downloadOneRetry op 1 1 e1 h1 r1]
    by_cases r2 : isRetryable downloadOneRetry e2 = true
    · rw [runRetryGo_err_retry downloadOneRetry op 0 2 e2 h2 r2]
      exact ⟨e3, 3, runRetryGo_zero_err downloadOneRetry op 3 e3 h3⟩
    · exact ⟨e2, 2, runRetryGo_err_stop downloadOneRetry op 0 2 e2 h2
        (Bool.not_eq_true _ ▸ eq_false_of_ne_true r2)⟩
  · exact ⟨e1, 1, runRetryGo_err_stop downloadOneRetry op 1 1 e1 h1
      (Bool.not_eq_true _ ▸ eq_false_of_ne_true r1)⟩

/-! ### Scrape-loop step lemmas -/

/-- A page-fetch error ends the whole scrape with that error. -/
lemma scrapeLoop_err (fetch : Nat → Except FetchError (List String)) (fuel : Nat)
    (s : ScrapeState) (e : FetchError) (hf : fetch s.offset = Except.error e) :
    scrapeLoop fetch (Nat.succ fuel) s = some (Except.error e) := by
  simp only [scrapeLoop, hf]

/-- Past the first page, a batch with no new URLs ends the loop. -/
lemma scrapeLoop_stop_no_new (fetch : Nat → Except FetchError (List String)) (fuel : Nat)
    (s : ScrapeState) (batch : List String) (hf : fetch s.offset = Except.ok batch)
    (hnew : batch.filter (fun u => decide (u ≠ "" ∧ u ∉ s.allUrls)) = [])
    (hoff : 0 < s.offset) :
    scrapeLoop fetch (Nat.succ fuel) s
      = some (Except.ok { s with fetched := s.fetched ++ [s.offset] }) := by
  simp only [scrapeLoop, hf]
  rw [if_pos ⟨hnew, hoff⟩]

/-- An empty batch on the very first page ends the loop. -/
lemma scrapeLoop_stop_first_empty (fetch : Nat → Except FetchError (List String)) (fuel : Nat)
    (s : ScrapeState) (hf : fetch s.offset = Except.ok []) (hoff : s.offset = 0) :
    scrapeLoop fetch (Nat.succ fuel) s
      = some (Except.ok { s with fetched := s.fetched ++ [s.offset] }) := by
  have h1 : ¬ 0 < s.offset := by omega
  simp only [scrapeLoop, hf, List.filter_nil]
  rw [if_neg (fun hc => h1 hc.2)]
  rw [if_pos trivial]
  rw [if_pos ⟨trivial, hoff⟩]

/-- A batch with at least one new URL extends the accumulator and the
checkpoint with the kept URLs and advances the offset by 40. -/
lemma scrapeLoop_step_some_new (fetch : Nat → Except FetchError (List String)) (fuel : Nat)
    (s : ScrapeState) (batch : List String) (hf : fetch s.offset = Except.ok batch)
    (hne : batch.filter (fun u => decide (u ≠ "" ∧ u ∉ s.allUrls)) ≠ []) :
    scrapeLoop fetch (Nat.succ fuel) s
      = scrapeLoop fetch fuel
          { offset := s.offset + 40
            allUrls := s.allUrls ++ batch.filter (fun u => decide (u ≠ "" ∧ u ∉ s.allUrls))
            checkpointLog :=
              s.checkpointLog ++ batch.filter (fun u => decide (u ≠ "" ∧ u ∉ s.allUrls))
            fetched := s.fetched ++ [s.offset] } := by
  have hb : batch ≠ [] := by
    intro hc
    subst hc
    simp at hne
  simp only [scrapeLoop, hf]
  rw [if_neg (fun hc => hne hc.1)]
  rw [if_neg hne]
  rw [if_neg (fun hc => hb hc.1)]
  rfl

/-- A batch that is entirely new extends the accumulator and the
checkpoint with the whole batch and advances the offset by 40. -/
lemma scrapeLoop_step_new (fetch : Nat → Except FetchError (List String)) (fuel : Nat)
    (s : ScrapeState) (batch : List String) (hf : fetch s.offset = Except.ok batch)
    (hkeep : batch.filter (fun u => decide (u ≠ "" ∧ u ∉ s.allUrls)) = batch)
    (hbne : batch ≠ []) :
    scrapeLoop fetch (Nat.succ fuel) s
      = scrapeLoop fetch fuel
          { offset := s.offset + 40
            allUrls := s.allUrls ++ batch
            checkpointLog := s.checkpointLog ++ batch
            fetched := s.fetched ++ [s.offset] } := by
  have hne : batch.filter (fun u => decide (u ≠ "" ∧ u ∉ s.allUrls)) ≠ [] := by
    rw [hkeep]
    exact hbne
  rw [scrapeLoop_step_some_new fetch fuel s batch hf hne, hkeep]

/-- A first page whose URLs are all already known (but non-empty) leaves
the accumulator alone and advances the offset by 40. -/
lemma scrapeLoop_step_no_new_first (fetch : Nat → Except FetchError (List String)) (fuel : Nat)
    (s : ScrapeState) (batch : List String) (hf : fetch s.offset = Except.ok batch)
    (hnew : batch.filter (fun u => decide (u ≠ "" ∧ u ∉ s.allUrls)) = [])
    (hoff : s.offset = 0) (hbne : batch ≠ []) :
    scrapeLoop fetch (Nat.succ fuel) s
      = scrapeLoop fetch fuel
          { s with offset := s.offset + 40, fetched := s.fetched ++ [s.offset] } := by
  have h1 : ¬ 0 < s.offset := by omega
  simp only [scrapeLoop, hf]
  rw [if_neg (fun hc => h1 hc.2)]
  rw [if_pos hnew]
  rw [if_neg (fun hc => hbne hc.1)]
  rfl

/-- The loop only ever appends to `all_urls`. -/
lemma scrapeLoop_allUrls_mono (fetch : Nat → Except FetchError (List String)) :
    ∀ (fuel : Nat) (s s' : ScrapeState),
      scrapeLoop fetch fuel s = some (Except.ok s') → ∃ t, s'.allUrls = s.allUrls ++ t
  | 0, s, s', h => by simp [scrapeLoop] at h
  | Nat.succ fuel, s, s', h => by
    cases hf : fetch s.offset with
    | error e =>
      rw [scrapeLoop_err fetch fuel s e hf] at h
      simp at h
    | ok batch =>
      by_cases hn : batch.filter (fun u => decide (u ≠ "" ∧ u ∉ s.allUrls)) = []
      · by_cases hoff : 0 < s.offset
        · rw [scrapeLoop_stop_no_new fetch fuel s batch hf hn hoff] at h
          simp only [Option.some.injEq, Except.ok.injEq] at h
          subst h
          exact ⟨[], by simp⟩
        · have hoff0 : s.offset = 0 := by omega
          by_cases hb : batch = []
          · subst hb
            rw [scrapeLoop_stop_first_empty fetch fuel s hf hoff0] at h
            simp only [Option.some.injEq, Except.ok.injEq] at h
            subst h
            exact ⟨[], by simp⟩
          · rw [scrapeLoop_step_no_new_first fetch fuel s batch hf hn hoff0 hb] at h
            obtain ⟨t, ht⟩ := scrapeLoop_allUrls_mono fetch fuel _ s' h
            exact ⟨t, by simpa using ht⟩
      · rw [scrapeLoop_step_some_new fetch fuel s batch hf hn] at h
        obtain ⟨t, ht⟩ := scrapeLoop_allUrls_mono fetch fuel _ s' h
        refine ⟨batch.filter (fun u => decide (u ≠ "" ∧ u ∉ s.allUrls)) ++ t, ?_⟩
        rw [ht]
        simp

/-- Unfolding of `scrape_all_urls` on a successful loop run. -/
lemma scrape_all_urls_of_loop (fetch : Nat → Except FetchError (List String)) (fuel : Nat)
    (cp : List String) (s : ScrapeState)
    (h : scrapeLoop fetch fuel
        { offset := 0, allUrls := cp, checkpointLog := cp, fetched := [] }
      = some (Except.ok s)) :
    scrape_all_urls fetch fuel cp = some (Except.ok (dedupSort s.allUrls, s)) := by
  simp only [scrape_all_urls]
  rw [h]

/-- Unfolding of `scrape_all_urls` on an aborted loop run. -/
lemma scrape_all_urls_of_loop_err (fetch : Nat → Except FetchError (List String)) (fuel : Nat)
    (cp : List String) (e : FetchError)
    (h : scrapeLoop fetch fuel
        { offset := 0, allUrls := cp, checkpointLog := cp, fetched := [] }
      = some (Except.error e)) :
    scrape_all_urls fetch fuel cp = some (Except.error e) := by
  simp only [scrape_all_urls]
  rw [h]

/-- Inversion of `scrape_all_urls` on a successful result. -/
lemma scrape_all_urls_cases (fetch : Nat → Except FetchError (List String)) (fuel : Nat)
    (cp r : List String) (s : ScrapeState)
    (h : scrape_all_urls fetch fuel cp = some (Except.ok (r, s))) :
    scrapeLoop fetch fuel { offset := 0, allUrls := cp, checkpointLog := cp, fetched := [] }
      = some (Except.ok s) ∧ r = dedupSort s.allUrls := by
  simp only [scrape_all_urls] at h
  cases hsl : scrapeLoop fetch fuel
      { offset := 0, allUrls := cp, checkpointLog := cp, fetched := [] } with
  | none => rw [hsl] at h; simp at h
  | some res =>
    cases res with
    | error e => rw [hsl] at h; simp at h
    | ok s2 =>
      rw [hsl] at h
      simp only [Option.some.injEq, Except.ok.injEq, Prod.mk.injEq] at h
      obtain ⟨h1, h2⟩ := h
      subst h2
      exact ⟨rfl, h1.symm⟩

/-- C2: the URL list a finished scrape hands to the download phase has no
duplicates and contains every URL loaded from the checkpoint. -/
theorem scrape_result_nodup_superset (fetch : Nat → Except FetchError (List String))
    (fuel : Nat) (cp r : List String) (s : ScrapeState)
    (h : scrape_all_urls fetch fuel cp = some (Except.ok (r, s))) :
    r.Nodup ∧ ∀ u ∈ cp, u ∈ r := by
  obtain ⟨hloop, hr⟩ := scrape_all_urls_cases fetch fuel cp r s h
  subst hr
  refine ⟨nodup_dedupSort _, ?_⟩
  intro u hu
  obtain ⟨t, ht⟩ := scrapeLoop_allUrls_mono fetch fuel _ s hloop
  rw [mem_dedupSort, ht]
  exact List.mem_append_left t hu

/-- Witness for C2 on a concrete two-page run seeded with checkpoint
entry "y". -/
theorem scrape_result_nodup_superset_witness :
    (["x", "y"] : List String).Nodup ∧ ∀ u ∈ (["y"] : List String), u ∈ (["x", "y"] : List String) :=
  scrape_result_nodup_superset (fun _ => Except.ok ["x"]) 2 ["y"] ["x", "y"]
    { offset := 40, allUrls := ["y", "x"], checkpointLog := ["y", "x"], fetched := [0, 40] }
    (by decide)

/-- When the first page yields zero URLs the loop stops after that single
fetch, whatever checkpoint was loaded. -/
lemma scrape_firstEmpty (fetch : Nat → Except FetchError (List String)) (fuel : Nat)
    (cp : List String) (h0 : fetch 0 = Except.ok []) (hfuel : 1 ≤ fuel) :
    scrape_all_urls fetch fuel cp
      = some (Except.ok (dedupSort cp,
          { offset := 0, allUrls := cp, checkpointLog := cp, fetched := [0] })) := by
  obtain ⟨f, rfl⟩ : ∃ f, fuel = Nat.succ f := ⟨fuel - 1, by omega⟩
  have hstop := scrapeLoop_stop_first_empty fetch f
    { offset := 0, allUrls := cp, checkpointLog := cp, fetched := [] } h0 rfl
  exact scrape_all_urls_of_loop fetch (Nat.succ f) cp _ hstop

/-- Counterexample to C5 as stated: with a non-empty loaded checkpoint
(here the single line "a") and a first page of zero URLs, the scrape
performs its single fetch at offset 0 but returns the checkpointed URL
list, not an empty result. -/
theorem scrape_first_page_empty_cex :
    scrape_all_urls (fun _ => Except.ok []) 1 ["a"]
      = some (Except.ok (["a"],
          { offset := 0, allUrls := ["a"], checkpointLog := ["a"], fetched := [0] }))
    ∧ (["a"] : List String) ≠ [] := by
  exact ⟨by decide, by decide⟩

/-- C5 (amended: with an empty checkpoint): a first page of zero URLs
makes the loop stop after exactly one page fetch, at offset 0 only (so
offset 40 is never fetched), with an empty result. -/
theorem scrape_first_page_empty_aborts (fetch : Nat → Except FetchError (List String))
    (fuel : Nat) (h0 : fetch 0 = Except.ok []) (hfuel : 1 ≤ fuel) :
    scrape_all_urls fetch fuel []
      = some (Except.ok ([],
          { offset := 0, allUrls := [], checkpointLog := [], fetched := [0] })) :=
  scrape_firstEmpty fetch fuel [] h0 hfuel

/-- Witness for C5's amended theorem at a concrete one-page source. -/
theorem scrape_first_page_empty_aborts_witness :
    scrape_all_urls (fun _ => Except.ok []) 1 []
      = some (Except.ok ([],
          { offset := 0, allUrls := [], checkpointLog := [], fetched := [0] })) :=
  scrape_first_page_empty_aborts (fun _ => Except.ok []) 1 rfl (by decide)

/-- C10: with a non-empty loaded checkpoint and a first page of zero
URLs, the pipeline's scrape stops after the single page fetch at offset 0
yet hands the deduplicated, sorted checkpoint to the download phase,
which then runs over it. -/
theorem pipeline_first_page_empty_uses_checkpoint
    (fetch : Nat → Except FetchError (List String))
    (fetchOp : String → Nat → Except FetchError String) (fuel : Nat) (st : PipeState)
    (h0 : fetch 0 = Except.ok []) (hcp : st.checkpointFile ≠ []) (hfuel : 1 ≤ fuel) :
    dedupSort st.checkpointFile ≠ []
    ∧ run_pipeline fetch fetchOp fuel st
      = some (Except.ok
          { checkpointFile := st.checkpointFile
            files := (download_all fetchOp (dedupSort st.checkpointFile)
                { files := st.files, failedLog := st.failedLog,
                  fetched := st.urlsFetched }).files
            failedLog := (download_all fetchOp (dedupSort st.checkpointFile)
                { files := st.files, failedLog := st.failedLog,
                  fetched := st.urlsFetched }).failedLog
            pagesFetched := st.pagesFetched ++ [0]
            urlsFetched := (download_all fetchOp (dedupSort st.checkpointFile)
                { files := st.files, failedLog := st.failedLog,
                  fetched := st.urlsFetched }).fetched }) := by
  refine ⟨dedupSort_ne_nil hcp, ?_⟩
  simp only [run_pipeline, scrape_firstEmpty fetch fuel st.checkpointFile h0 hfuel]
  rw [if_neg (dedupSort_ne_nil hcp)]

/-- Witness for C10 at a concrete checkpoint of one URL. -/
theorem pipeline_first_page_empty_uses_checkpoint_witness :
    dedupSort ["b"] ≠ []
    ∧ run_pipeline (fun _ => Except.ok []) (fun _ _ => Except.ok "B") 1
        { checkpointFile := ["b"], files := [], failedLog := [],
          pagesFetched := [], urlsFetched := [] }
      = some (Except.ok
          { checkpointFile := ["b"]
            files := (download_all (fun _ _ => Except.ok "B") (dedupSort ["b"])
                { files := [], failedLog := [], fetched := [] }).files
            failedLog := (download_all (fun _ _ => Except.ok "B") (dedupSort ["b"])
                { files := [], failedLog := [], fetched := [] }).failedLog
            pagesFetched := [] ++ [0]
            urlsFetched := (download_all (fun _ _ => Except.ok "B") (dedupSort ["b"])
                { files := [], failedLog := [], fetched := [] }).fetched }) :=
  pipeline_first_page_empty_uses_checkpoint (fun _ => Except.ok [])
    (fun _ _ => Except.ok "B") 1
    { checkpointFile := ["b"], files := [], failedLog := [],
      pagesFetched := [], urlsFetched := [] }
    rfl (by decide) (by decide)

lemma pageOffsets_length : ∀ (n : Nat), (pageOffsets n).length = n
  | 0 => rfl
  | Nat.succ n => by simp [pageOffsets, pageOffsets_length n]

lemma mem_pagesJoin (page : Nat → List String) :
    ∀ (n : Nat) (u : String), u ∈ pagesJoin page n ↔ ∃ i, i < n ∧ u ∈ page (40 * i)
  | 0, u => by simp [pagesJoin]
  | Nat.succ n, u => by
    simp only [pagesJoin, List.mem_append, mem_pagesJoin page n u]
    constructor
    · rintro (⟨i, hi, hu⟩ | hu)
      · exact ⟨i, by omega, hu⟩
      · exact ⟨n, by omega, hu⟩
    · rintro ⟨i, hi, hu⟩
      rcases Nat.lt_or_ge i n with h | h
      · exact Or.inl ⟨i, h, hu⟩
      · have : i = n := by omega
        subst this
        exact Or.inr hu

/-- Invariant run of the loop for C1: having consumed pages `0..i-1` of a
source whose first `N` pages are entirely new and whose page `N` is
entirely already known, the loop finishes with the join of the first `N`
pages after fetching pages `i..N`. -/
lemma c1_loop (page : Nat → List String) (N : Nat) (hN : 1 ≤ N)
    (hne : ∀ i, i < N → ∀ u ∈ page (40 * i), u ≠ "")
    (hnonempty : ∀ i, i < N → page (40 * i) ≠ [])
    (hdisj : ∀ i, i < N → ∀ u ∈ page (40 * i), u ∉ pagesJoin page i)
    (hlast : ∀ u ∈ page (40 * N), u ∈ pagesJoin page N) :
    ∀ (d i : Nat), i + d = N → ∀ (fuel : Nat), N - i < fuel →
      scrapeLoop (fun off => Except.ok (page off)) fuel
        { offset := 40 * i, allUrls := pagesJoin page i,
          checkpointLog := pagesJoin page i, fetched := pageOffsets i }
      = some (Except.ok
          { offset := 40 * N, allUrls := pagesJoin page N,
            checkpointLog := pagesJoin page N, fetched := pageOffsets (N + 1) }) := by
  intro d
  induction d with
  | zero =>
    intro i hi fuel hfuel
    have hiN : i = N := by omega
    subst hiN
    obtain ⟨f, rfl⟩ : ∃ f, fuel = Nat.succ f := ⟨fuel - 1, by omega⟩
    have hfilter : (page (40 * i)).filter
        (fun u => decide (u ≠ "" ∧ u ∉ pagesJoin page i)) = [] := by
      apply List.filter_eq_nil_iff.mpr
      intro a ha
      simp only [decide_eq_true_eq]
      exact fun hand => hand.2 (hlast a ha)
    have hoff : 0 < 40 * i := by omega
    have hstop := scrapeLoop_stop_no_new (fun off => Except.ok (page off)) f
      { offset := 40 * i, allUrls := pagesJoin page i,
        checkpointLog := pagesJoin page i, fetched := pageOffsets i }
      (page (40 * i)) rfl hfilter hoff
    rw [hstop]
    rfl
  | succ d ih =>
    intro i hi fuel hfuel
    have hiN : i < N := by omega
    obtain ⟨f, rfl⟩ : ∃ f, fuel = Nat.succ f := ⟨fuel - 1, by omega⟩
    have hkeep : (page (40 * i)).filter
        (fun u => decide (u ≠ "" ∧ u ∉ pagesJoin page i)) = page (40 * i) := by
      apply List.filter_eq_self.mpr
      intro a ha
      simp only [decide_eq_true_eq]
      exact ⟨hne i hiN a ha, hdisj i hiN a ha⟩
    have hstep := scrapeLoop_step_new (fun off => Except.ok (page off)) f
      { offset := 40 * i, allUrls := pagesJoin page i,
        checkpointLog := pagesJoin page i, fetched := pageOffsets i }
      (page (40 * i)) rfl hkeep (hnonempty i hiN)
    rw [hstep]
    have h40 : 40 * i + 40 = 40 * (i + 1) := by ring
    rw [h40]
    exact ih (i + 1) (by omega) f (by omega)

/-- C1: over a simulated source whose first N pages are pairwise-new
non-empty URL batches and whose page N repeats only known URLs, a scrape
from an empty checkpoint fetches exactly the N+1 offsets 0, 40, ...,
40*N and returns the union of the page URLs, without duplicates, sorted
lexicographically. -/
theorem scrape_termination_n_plus_one (page : Nat → List String) (N fuel : Nat)
    (hN : 1 ≤ N) (hfuel : N < fuel)
    (hne : ∀ i, i < N → ∀ u ∈ page (40 * i), u ≠ "")
    (hnonempty : ∀ i, i < N → page (40 * i) ≠ [])
    (hdisj : ∀ i, i < N → ∀ u ∈ page (40 * i), u ∉ pagesJoin page i)
    (hlast : ∀ u ∈ page (40 * N), u ∈ pagesJoin page N) :
    scrape_all_urls (fun off => Except.ok (page off)) fuel []
      = some (Except.ok (dedupSort (pagesJoin page N),
          { offset := 40 * N, allUrls := pagesJoin page N,
            checkpointLog := pagesJoin page N, fetched := pageOffsets (N + 1) }))
    ∧ (pageOffsets (N + 1)).length = N + 1
    ∧ (dedupSort (pagesJoin page N)).Sorted (fun a b => strLe a b = true)
    ∧ (dedupSort (pagesJoin page N)).Nodup
    ∧ (∀ u, u ∈ dedupSort (pagesJoin page N) ↔ ∃ i, i ≤ N ∧ u ∈ page (40 * i)) := by
  have hloop := c1_loop page N hN hne hnonempty hdisj hlast N 0 (by omega) fuel (by omega)
  refine ⟨scrape_all_urls_of_loop _ fuel [] _ hloop, pageOffsets_length _,
    sorted_dedupSort _, nodup_dedupSort _, ?_⟩
  intro u
  rw [mem_dedupSort, mem_pagesJoin]
  constructor
  · rintro ⟨i, hi, hu⟩
    exact ⟨i, by omega, hu⟩
  · rintro ⟨i, hi, hu⟩
    rcases Nat.lt_or_ge i N with h | h
    · exact ⟨i, h, hu⟩
    · have hIN : i = N := by omega
      subst hIN
      exact (mem_pagesJoin page i u).mp (hlast u hu)

/-- Witness for C1 with N = 1: one page of two fresh URLs followed by a
page repeating a known URL. -/
theorem scrape_termination_n_plus_one_witness :
    scrape_all_urls
        (fun off => Except.ok (if off = 0 then ["b", "a"] else ["a"])) 2 []
      = some (Except.ok (["a", "b"],
          { offset := 40, allUrls := ["b", "a"], checkpointLog := ["b", "a"],
            fetched := [0, 40] })) := by
  have h := scrape_termination_n_plus_one
    (fun off => if off = 0 then ["b", "a"] else ["a"]) 1 2
    (by decide) (by decide) (by decide) (by decide) (by decide) (by decide)
  rw [h.1]
  decide

/-! ### Download-phase lemmas -/

/-- C8: when the derived destination file already exists, `download_one`
returns immediately: no network fetch is recorded, the failure log is
untouched, and the file list (hence the existing file) is unchanged, so no
output path is ever written a second time. -/
theorem download_one_skip_existing (fetchOp : String → Nat → Except FetchError String)
    (url : String) (index : Nat) (st : DlState)
    (h : destFilename url index ∈ pathsOf st.files) :
    download_one fetchOp url index st = st := by
  unfold download_one
  rw [if_pos h]

/-- Witness for C8: a file at "0001.jpg" makes the task a no-op. -/
theorem download_one_skip_existing_witness :
    download_one (fun _ _ => Except.error FetchError.httpError) "site/photo.jpg" 1
        { files := [("0001.jpg", "old")], failedLog := [], fetched := [] }
      = { files := [("0001.jpg", "old")], failedLog := [], fetched := [] } :=
  download_one_skip_existing (fun _ _ => Except.error FetchError.httpError)
    "site/photo.jpg" 1
    { files := [("0001.jpg", "old")], failedLog := [], fetched := [] } (by decide)

/-- A task whose file is absent and whose first GET succeeds writes the
body and records one fetch. -/
lemma download_one_absent_ok (fetchOp : String → Nat → Except FetchError String)
    (u : String) (i : Nat) (st : DlState) (b : String)
    (habsent : destFilename u i ∉ pathsOf st.files) (hb : fetchOp u 1 = Except.ok b) :
    download_one fetchOp u i st
      = { st with files := st.files ++ [(destFilename u i, b)]
                  fetched := st.fetched ++ [(i, u)] } := by
  unfold download_one
  rw [if_neg habsent, runRetry_first_ok downloadOneRetry (fetchOp u) b hb]

/-- A task whose file is absent and whose GET fails on every attempt
appends the URL to the failure log and records one fetch. -/
lemma download_one_absent_err (fetchOp : String → Nat → Except FetchError String)
    (u : String) (i : Nat) (st : DlState)
    (habsent : destFilename u i ∉ pathsOf st.files)
    (hf : ∀ k, ∃ e, fetchOp u k = Except.error e) :
    download_one fetchOp u i st
      = { st with failedLog := st.failedLog ++ [u]
                  fetched := st.fetched ++ [(i, u)] } := by
  obtain ⟨e, k, hek⟩ := runRetry_dl_all_error (fetchOp u) hf
  unfold download_one
  rw [if_neg habsent, hek]

lemma string_append_ne (a b c d : String) (hlen : a.length = b.length) (hne : a ≠ b) :
    a ++ c ≠ b ++ d := by
  intro h
  apply hne
  have hd : (a ++ c).data = (b ++ d).data := by rw [h]
  rw [String.data_append, String.data_append] at hd
  have hl : a.data.length = b.data.length := hlen
  have hab : a.data = b.data := List.append_inj_left hd hl
  cases a with
  | mk da =>
    cases b with
    | mk db =>
      exact congrArg String.mk hab

/-- Destination filenames with distinct equal-width indices differ,
whatever the URLs' extensions are. -/
lemma destFilename_ne (u v : String) (i j : Nat)
    (hlen : (pad4 i).length = (pad4 j).length) (hne : pad4 i ≠ pad4 j) :
    destFilename u i ≠ destFilename v j :=
  string_append_ne (pad4 i) (pad4 j) (fileExtOf u) (fileExtOf v) hlen hne

/-- C4: five resource URLs of which the third always fails to fetch while
the others succeed at once, starting from an empty directory: the phase
produces exactly the four other output files, appends exactly the failing
URL to the failure log, and runs to completion (the per-task exception
handler turns the failure into a log entry instead of propagating it). -/
theorem download_failure_isolation
    (u1 u2 u3 u4 u5 : String) (fetchOp : String → Nat → Except FetchError String)
    (hf3 : ∀ k, ∃ e, fetchOp u3 k = Except.error e)
    (hok : ∀ u, u ∈ [u1, u2, u4, u5] → ∃ b, fetchOp u 1 = Except.ok b) :
    ∃ b1 b2 b4 b5,
      download_all fetchOp [u1, u2, u3, u4, u5]
          { files := [], failedLog := [], fetched := [] }
        = { files := [(destFilename u1 1, b1), (destFilename u2 2, b2),
                      (destFilename u4 4, b4), (destFilename u5 5, b5)]
            failedLog := [u3]
            fetched := [(1, u1), (2, u2), (3, u3), (4, u4), (5, u5)] }
      ∧ (download_all fetchOp [u1, u2, u3, u4, u5]
          { files := [], failedLog := [], fetched := [] }).files.length = 4
      ∧ (download_all fetchOp [u1, u2, u3, u4, u5]
          { files := [], failedLog := [], fetched := [] }).failedLog.length = 1 := by
  obtain ⟨b1, hb1⟩ := hok u1 (by simp)
  obtain ⟨b2, hb2⟩ := hok u2 (by simp)
  obtain ⟨b4, hb4⟩ := hok u4 (by simp)
  obtain ⟨b5, hb5⟩ := hok u5 (by simp)
  have ne21 : destFilename u2 2 ≠ destFilename u1 1 :=
    destFilename_ne u2 u1 2 1 (by decide) (by decide)
  have ne31 : destFilename u3 3 ≠ destFilename u1 1 :=
    destFilename_ne u3 u1 3 1 (by decide) (by decide)
  have ne32 : destFilename u3 3 ≠ destFilename u2 2 :=
    destFilename_ne u3 u2 3 2 (by decide) (by decide)
  have ne41 : destFilename u4 4 ≠ destFilename u1 1 :=
    destFilename_ne u4 u1 4 1 (by decide) (by decide)
  have ne42 : destFilename u4 4 ≠ destFilename u2 2 :=
    destFilename_ne u4 u2 4 2 (by decide) (by decide)
  have ne51 : destFilename u5 5 ≠ destFilename u1 1 :=
    destFilename_ne u5 u1 5 1 (by decide) (by decide)
  have ne52 : destFilename u5 5 ≠ destFilename u2 2 :=
    destFilename_ne u5 u2 5 2 (by decide) (by decide)
  have ne54 : destFilename u5 5 ≠ destFilename u4 4 :=
    destFilename_ne u5 u4 5 4 (by decide) (by decide)
  have s1 : download_one fetchOp u1 1 { files := [], failedLog := [], fetched := [] }
      = { files := [(destFilename u1 1, b1)], failedLog := [], fetched := [(1, u1)] } := by
    rw [download_one_absent_ok fetchOp u1 1 _ b1 (by simp [pathsOf]) hb1]
    rfl
  have s2 : download_one fetchOp u2 2
      { files := [(destFilename u1 1, b1)], failedLog := [], fetched := [(1, u1)] }
      = { files := [(destFilename u1 1, b1), (destFilename u2 2, b2)], failedLog := []
          fetched := [(1, u1), (2, u2)] } := by
    rw [download_one_absent_ok fetchOp u2 2 _ b2 (by simp [pathsOf]; exact ne21) hb2]
    rfl
  have s3 : download_one fetchOp u3 3
      { files := [(destFilename u1 1, b1), (destFilename u2 2, b2)], failedLog := []
        fetched := [(1, u1), (2, u2)] }
      = { files := [(destFilename u1 1, b1), (destFilename u2 2, b2)], failedLog := [u3]
          fetched := [(1, u1), (2, u2), (3, u3)] } := by
    rw [download_one_absent_err fetchOp u3 3 _
      (by simp [pathsOf]; exact ⟨ne31, ne32⟩) hf3]
    rfl
  have s4 : download_one fetchOp u4 4
      { files := [(destFilename u1 1, b1), (destFilename u2 2, b2)], failedLog := [u3]
        fetched := [(1, u1), (2, u2), (3, u3)] }
      = { files := [(destFilename u1 1, b1), (destFilename u2 2, b2),
                    (destFilename u4 4, b4)], failedLog := [u3]
          fetched := [(1, u1), (2, u2), (3, u3), (4, u4)] } := by
    rw [download_one_absent_ok fetchOp u4 4 _ b4
      (by simp [pathsOf]; exact ⟨ne41, ne42⟩) hb4]
    rfl
  have s5 : download_one fetchOp u5 5
      { files := [(destFilename u1 1, b1), (destFilename u2 2, b2),
                  (destFilename u4 4, b4)], failedLog := [u3]
        fetched := [(1, u1), (2, u2), (3, u3), (4, u4)] }
      = { files := [(destFilename u1 1, b1), (destFilename u2 2, b2),
                    (destFilename u4 4, b4), (destFilename u5 5, b5)], failedLog := [u3]
          fetched := [(1, u1), (2, u2), (3, u3), (4, u4), (5, u5)] } := by
    rw [download_one_absent_ok fetchOp u5 5 _ b5
      (by simp [pathsOf]; exact ⟨ne51, ne52, ne54⟩) hb5]
    rfl
  have hall : download_all fetchOp [u1, u2, u3, u4, u5]
      { files := [], failedLog := [], fetched := [] }
      = { files := [(destFilename u1 1, b1), (destFilename u2 2, b2),
                    (destFilename u4 4, b4), (destFilename u5 5, b5)]
          failedLog := [u3]
          fetched := [(1, u1), (2, u2), (3, u3), (4, u4), (5, u5)] } := by
    unfold download_all
    show downloadList fetchOp [(1, u1), (2, u2), (3, u3), (4, u4), (5, u5)]
        { files := [], failedLog := [], fetched := [] } = _
    simp only [downloadList]
    rw [s1, s2, s3, s4, s5]
  refine ⟨b1, b2, b4, b5, hall, ?_, ?_⟩
  · rw [hall]
    rfl
  · rw [hall]
    rfl

/-- Witness for C4 with URLs "a".."e" where "c" always fails. -/
theorem download_failure_isolation_witness :
    ∃ b1 b2 b4 b5,
      download_all
          (fun u _ => if u = "c" then Except.error FetchError.httpError
                      else Except.ok "body")
          ["a", "b", "c", "d", "e"] { files := [], failedLog := [], fetched := [] }
        = { files := [(destFilename "a" 1, b1), (destFilename "b" 2, b2),
                      (destFilename "d" 4, b4), (destFilename "e" 5, b5)]
            failedLog := ["c"]
            fetched := [(1, "a"), (2, "b"), (3, "c"), (4, "d"), (5, "e")] }
      ∧ (download_all
          (fun u _ => if u = "c" then Except.error FetchError.httpError
                      else Except.ok "body")
          ["a", "b", "c", "d", "e"]
          { files := [], failedLog := [], fetched := [] }).files.length = 4
      ∧ (download_all
          (fun u _ => if u = "c" then Except.error FetchError.httpError
                      else Except.ok "body")
          ["a", "b", "c", "d", "e"]
          { files := [], failedLog := [], fetched := [] }).failedLog.length = 1 :=
  download_failure_isolation "a" "b" "c" "d" "e"
    (fun u _ => if u = "c" then Except.error FetchError.httpError else Except.ok "body")
    (fun _ => ⟨FetchError.httpError, rfl⟩)
    (by
      intro u hu
      simp only [List.mem_cons, List.not_mem_nil, or_false] at hu
      rcases hu with rfl | rfl | rfl | rfl <;> exact ⟨"body", rfl⟩)

/-! ### Retry-policy theorems -/

/-- Counterexample to C3 as stated: the two call sites do not retry the
same transient failure classes — at the concrete error class
`asyncio.TimeoutError`, the page-fetch site retries but the
resource-fetch site does not (its predicate lists only
`httpx.HTTPError`). -/
theorem retry_transient_classes_cex :
    isRetryable fetchBatchRetry FetchError.asyncioTimeout = true
    ∧ isRetryable downloadOneRetry FetchError.asyncioTimeout = false := by decide

/-- C3 (amended): both call sites use attempt limit 3 and the same
backoff shape (randomized exponential, multiplier 1, jitter per
`wait_random_exponential`), with wait ceilings 20 and 10; both retry
network errors (`httpx.HTTPError`), but only the page-fetch site also
retries `asyncio.TimeoutError`; neither retries other exceptions. -/
theorem retry_sites_config :
    fetchBatchRetry.maxAttempts = 3
    ∧ downloadOneRetry.maxAttempts = 3
    ∧ fetchBatchRetry.waitMultiplier = 1
    ∧ downloadOneRetry.waitMultiplier = 1
    ∧ fetchBatchRetry.waitMax = 20
    ∧ downloadOneRetry.waitMax = 10
    ∧ fetchBatchRetry.reraise = true
    ∧ downloadOneRetry.reraise = true
    ∧ isRetryable fetchBatchRetry FetchError.httpError = true
    ∧ isRetryable downloadOneRetry FetchError.httpError = true
    ∧ isRetryable fetchBatchRetry FetchError.asyncioTimeout = true
    ∧ isRetryable downloadOneRetry FetchError.asyncioTimeout = false
    ∧ isRetryable fetchBatchRetry FetchError.other = false
    ∧ isRetryable downloadOneRetry FetchError.other = false := by decide

/-- C7: a page fetch that fails with a transient error on every attempt
is tried exactly 3 times, the last error is re-raised (the retry outcome
is that error, not a swallowed success), and the surrounding scrape run
aborts with that same error. -/
theorem page_retry_exhaustion_aborts_scrape
    (pageOps : Nat → Nat → Except FetchError (List String)) (e : FetchError)
    (cp : List String) (fuel : Nat)
    (hr : isRetryable fetchBatchRetry e = true)
    (h : ∀ k, pageOps 0 k = Except.error e) (hfuel : 1 ≤ fuel) :
    fetch_batch (pageOps 0) = (Except.error e, 3)
    ∧ scrape_all_urls (fun off => (fetch_batch (pageOps off)).1) fuel cp
      = some (Except.error e) := by
  have hfb : fetch_batch (pageOps 0) = (Except.error e, 3) :=
    runRetry_fetchBatch_all_error (pageOps 0) e hr h
  refine ⟨hfb, ?_⟩
  obtain ⟨f, rfl⟩ : ∃ f, fuel = Nat.succ f := ⟨fuel - 1, by omega⟩
  apply scrape_all_urls_of_loop_err
  apply scrapeLoop_err
  show (fetch_batch (pageOps 0)).1 = Except.error e
  rw [hfb]

/-- Witness for C7: a POST that always raises a network error. -/
theorem page_retry_exhaustion_aborts_scrape_witness :
    fetch_batch (fun _ => Except.error FetchError.httpError)
      = (Except.error FetchError.httpError, 3)
    ∧ scrape_all_urls
        (fun _ => (fetch_batch (fun _ => Except.error FetchError.httpError)).1) 1 []
      = some (Except.error FetchError.httpError) :=
  page_retry_exhaustion_aborts_scrape
    (fun _ _ => Except.error FetchError.httpError) FetchError.httpError [] 1
    (by decide) (fun _ => rfl) (by decide)

/-! ### Concurrency-model lemmas -/

lemma countFlight_replicate_notStarted : ∀ (n : Nat),
    countFlight (List.replicate n TaskPhase.notStarted) = 0
  | 0 => rfl
  | Nat.succ n => by
    simp [List.replicate_succ, countFlight, countFlight_replicate_notStarted n]

lemma countFlight_set : ∀ (ts : List TaskPhase) (i : Nat) (a b : TaskPhase),
    ts.get? i = some a →
    countFlight (ts.set i b) + (if a = TaskPhase.inFlight then 1 else 0)
      = countFlight ts + (if b = TaskPhase.inFlight then 1 else 0)
  | [], i, a, b, h => by simp at h
  | t :: ts, 0, a, b, h => by
    simp only [List.get?_cons_zero, Option.some.injEq] at h
    subst h
    simp only [List.set, countFlight]
    ring
  | t :: ts, Nat.succ j, a, b, h => by
    simp only [List.get?_cons_succ] at h
    have ih := countFlight_set ts j a b h
    simp only [List.set, countFlight]
    rw [Nat.add_assoc, ih, ← Nat.add_assoc]

lemma exists_inFlight : ∀ (ts : List TaskPhase), 0 < countFlight ts →
    ∃ i, ts.get? i = some TaskPhase.inFlight
  | [], h => by simp [countFlight] at h
  | t :: ts, h => by
    by_cases ht : t = TaskPhase.inFlight
    · exact ⟨0, by simp [ht]⟩
    · have h2 : 0 < countFlight ts := by
        simp only [countFlight, if_neg ht, Nat.zero_add] at h
        exact h
      obtain ⟨i, hi⟩ := exists_inFlight ts h2
      exact ⟨i + 1, by simpa using hi⟩

/-- One scheduler step preserves the semaphore accounting. -/
lemma concStep_invariant {cap : Nat} {s s2 : ConcState} (hstep : ConcStep s s2)
    (ih : s.avail + countFlight s.tasks = cap) :
    s2.avail + countFlight s2.tasks = cap := by
  cases hstep with
  | skipExisting i hi =>
    have hc := countFlight_set s.tasks i _ TaskPhase.finished hi
    simp at hc
    dsimp only
    omega
  | beginWait i hi =>
    have hc := countFlight_set s.tasks i _ TaskPhase.waiting hi
    simp at hc
    dsimp only
    omega
  | acquire i hi ha =>
    have hc := countFlight_set s.tasks i _ TaskPhase.inFlight hi
    simp at hc
    dsimp only
    omega
  | release i hi =>
    have hc := countFlight_set s.tasks i _ TaskPhase.finished hi
    simp at hc
    dsimp only
    omega

/-- Semaphore accounting: free slots plus in-flight fetches always equal
the capacity. -/
lemma conc_invariant {cap n : Nat} {s : ConcState} (h : ConcReach cap n s) :
    s.avail + countFlight s.tasks = cap := by
  induction h with
  | init => simp [initConc, countFlight_replicate_notStarted]
  | step hr hstep ih => exact concStep_invariant hstep ih

/-- C9: along every scheduler run of the download phase under the default
semaphore capacity (8), never more than 8 fetches are in flight at once;
and the phase can only come to rest (no scheduler step possible, which is
when `asyncio.gather` returns) with every task finished. -/
theorem download_concurrency_cap (n : Nat) (s : ConcState)
    (h : ConcReach SETTINGS.concurrent_downloads n s) :
    countFlight s.tasks ≤ SETTINGS.concurrent_downloads
    ∧ ((∀ s2, ¬ ConcStep s s2) → ∀ t ∈ s.tasks, t = TaskPhase.finished) := by
  have hinv := conc_invariant h
  constructor
  · omega
  · intro hterm t ht
    obtain ⟨i, hi⟩ := List.mem_iff_get?.mp ht
    cases t with
    | notStarted => exact absurd (ConcStep.beginWait s i hi) (hterm _)
    | waiting =>
      by_cases ha : 0 < s.avail
      · exact absurd (ConcStep.acquire s i hi ha) (hterm _)
      · have hcap : 0 < SETTINGS.concurrent_downloads := by decide
        have hcf : 0 < countFlight s.tasks := by omega
        obtain ⟨j, hj⟩ := exists_inFlight s.tasks hcf
        exact absurd (ConcStep.release s j hj) (hterm _)
    | inFlight => exact absurd (ConcStep.release s i hi) (hterm _)
    | finished => rfl

/-- Witness for C9: a reachable state of a 20-task run in which one task
holds a slot and seven slots remain free. -/
theorem download_concurrency_cap_witness :
    countFlight (TaskPhase.inFlight :: List.replicate 19 TaskPhase.notStarted)
      ≤ SETTINGS.concurrent_downloads
    ∧ ((∀ s2, ¬ ConcStep
          { avail := 7, tasks := TaskPhase.inFlight :: List.replicate 19 TaskPhase.notStarted }
          s2)
        → ∀ t ∈ (TaskPhase.inFlight :: List.replicate 19 TaskPhase.notStarted),
            t = TaskPhase.finished) := by
  have h1 := ConcReach.step (@ConcReach.init 8 20)
    (ConcStep.beginWait (initConc 8 20) 0 rfl)
  have h2 := ConcReach.step h1 (ConcStep.acquire _ 0 rfl (by decide))
  exact download_concurrency_cap 20
    { avail := 7, tasks := TaskPhase.inFlight :: List.replicate 19 TaskPhase.notStarted }
    h2

/-! ### Download-phase frame lemmas -/

lemma pathsOf_append (xs ys : List (String × String)) :
    pathsOf (xs ++ ys) = pathsOf xs ++ pathsOf ys := by
  simp [pathsOf]

lemma countPath_append (xs ys : List (String × String)) (p : String) :
    countPath (xs ++ ys) p = countPath xs p + countPath ys p := by
  simp [countPath, pathsOf_append]

lemma countPath_single_ne (fn b p : String) (h : fn ≠ p) : countPath [(fn, b)] p = 0 := by
  simp [countPath, pathsOf, List.count_cons, h]

/-- The three possible outcomes of one download task: skip because the
file exists, write the fetched body to a fresh path, or log the failure;
the two latter record one network fetch. -/
lemma download_one_shape (fetchOp : String → Nat → Except FetchError String)
    (u : String) (i : Nat) (st : DlState) :
    download_one fetchOp u i st = st
    ∨ (destFilename u i ∉ pathsOf st.files
        ∧ ((∃ b, download_one fetchOp u i st
              = { st with files := st.files ++ [(destFilename u i, b)]
                          fetched := st.fetched ++ [(i, u)] })
            ∨ download_one fetchOp u i st
              = { st with failedLog := st.failedLog ++ [u]
                          fetched := st.fetched ++ [(i, u)] })) := by
  by_cases h : destFilename u i ∈ pathsOf st.files
  · left
    unfold download_one
    rw [if_pos h]
  · right
    refine ⟨h, ?_⟩
    unfold download_one
    rw [if_neg h]
    rcases hr : runRetry downloadOneRetry (fetchOp u) with ⟨res, k⟩
    cases res with
    | ok b => exact Or.inl ⟨b, rfl⟩
    | error e => exact Or.inr rfl

/-- Frame property of the sequential download fold: paths already on disk
keep their multiplicity (no rewrite) and stay present, and every network
fetch the fold performs is either inherited or aims at a path that was
absent when the fold started. -/
lemma downloadList_frame (fetchOp : String → Nat → Except FetchError String) :
    ∀ (l : List (Nat × String)) (st : DlState),
      (∀ p, p ∈ pathsOf st.files →
          countPath (downloadList fetchOp l st).files p = countPath st.files p
          ∧ p ∈ pathsOf (downloadList fetchOp l st).files)
      ∧ (∀ x, x ∈ (downloadList fetchOp l st).fetched →
          x ∈ st.fetched ∨ destFilename x.2 x.1 ∉ pathsOf st.files)
  | [], st => by
    constructor
    · intro p hp
      exact ⟨rfl, hp⟩
    · intro x hx
      exact Or.inl hx
  | (i, u) :: rest, st => by
    rcases download_one_shape fetchOp u i st with heq | ⟨habs, hcase⟩
    · have ih := downloadList_frame fetchOp rest st
      constructor
      · intro p hp
        have h2 := ih.1 p hp
        constructor
        · rw [downloadList, heq]
          exact h2.1
        · rw [downloadList, heq]
          exact h2.2
      · intro x hx
        rw [downloadList, heq] at hx
        exact ih.2 x hx
    · rcases hcase with ⟨b, heq⟩ | heq
      · -- success: a new file appears at a previously absent path
        have ih := downloadList_frame fetchOp rest
          { st with files := st.files ++ [(destFilename u i, b)]
                    fetched := st.fetched ++ [(i, u)] }
        constructor
        · intro p hp
          have hfresh : destFilename u i ≠ p := fun hc => habs (hc ▸ hp)
          have hp2 : p ∈ pathsOf (st.files ++ [(destFilename u i, b)]) := by
            rw [pathsOf_append]
            exact List.mem_append_left _ hp
          have h2 := ih.1 p hp2
          have hcnt : countPath (st.files ++ [(destFilename u i, b)]) p
              = countPath st.files p := by
            rw [countPath_append, countPath_single_ne _ _ _ hfresh]
            omega
          constructor
          · rw [downloadList, heq, h2.1]
            exact hcnt
          · rw [downloadList, heq]
            exact h2.2
        · intro x hx
          rw [downloadList, heq] at hx
          rcases ih.2 x hx with hin | hout
          · simp only [List.mem_append, List.mem_singleton] at hin
            rcases hin with hin | hin
            · exact Or.inl hin
            · subst hin
              exact Or.inr habs
          · right
            intro hc
            apply hout
            rw [pathsOf_append]
            exact List.mem_append_left _ hc
      · -- failure: the file list is unchanged, the URL is logged
        have ih := downloadList_frame fetchOp rest
          { st with failedLog := st.failedLog ++ [u]
                    fetched := st.fetched ++ [(i, u)] }
        constructor
        · intro p hp
          have h2 := ih.1 p hp
          constructor
          · rw [downloadList, heq]
            exact h2.1
          · rw [downloadList, heq]
            exact h2.2
        · intro x hx
          rw [downloadList, heq] at hx
          rcases ih.2 x hx with hin | hout
          · simp only [List.mem_append, List.mem_singleton] at hin
            rcases hin with hin | hin
            · exact Or.inl hin
            · subst hin
              exact Or.inr habs
          · exact Or.inr hout

/-- A scrape over a source all of whose URLs are already in the loaded
checkpoint appends nothing: it stops after one page fetch (empty first
page) or two (first page non-empty but yielding nothing new), returning
the deduplicated sorted checkpoint with the checkpoint log unchanged. -/
lemma scrape_covered (page : Nat → List String) (fuel : Nat) (cp : List String)
    (hcov : ∀ off, ∀ u ∈ page off, u ∈ cp) (hfuel : 2 ≤ fuel) :
    scrape_all_urls (fun off => Except.ok (page off)) fuel cp
      = some (Except.ok (dedupSort cp,
          { offset := 0, allUrls := cp, checkpointLog := cp, fetched := [0] }))
    ∨ scrape_all_urls (fun off => Except.ok (page off)) fuel cp
      = some (Except.ok (dedupSort cp,
          { offset := 40, allUrls := cp, checkpointLog := cp, fetched := [0, 40] })) := by
  have hfilter : ∀ (batch : List String), (∀ u ∈ batch, u ∈ cp) →
      batch.filter (fun u => decide (u ≠ "" ∧ u ∉ cp)) = [] := by
    intro batch hb
    apply List.filter_eq_nil_iff.mpr
    intro a ha
    simp only [decide_eq_true_eq]
    exact fun hand => hand.2 (hb a ha)
  by_cases hp0 : page 0 = []
  · left
    exact scrape_firstEmpty (fun off => Except.ok (page off)) fuel cp
      (congrArg Except.ok hp0) (by omega)
  · right
    obtain ⟨f, rfl⟩ : ∃ f, fuel = Nat.succ (Nat.succ f) := ⟨fuel - 2, by omega⟩
    have h1 := scrapeLoop_step_no_new_first (fun off => Except.ok (page off)) (Nat.succ f)
      { offset := 0, allUrls := cp, checkpointLog := cp, fetched := [] }
      (page 0) rfl (hfilter (page 0) (hcov 0)) rfl hp0
    have h2 := scrapeLoop_stop_no_new (fun off => Except.ok (page off)) f
      { offset := 0 + 40, allUrls := cp, checkpointLog := cp, fetched := [] ++ [0] }
      (page (0 + 40)) rfl (hfilter (page (0 + 40)) (hcov (0 + 40)))
      (by show 0 < 0 + 40; omega)
    refine scrape_all_urls_of_loop _ _ cp
      { offset := 40, allUrls := cp, checkpointLog := cp, fetched := [0, 40] } ?_
    rw [h1]
    exact h2

/-- One pipeline run against a gallery fully covered by the loaded
checkpoint: the run succeeds, the checkpoint file is byte-identical
afterwards, files already on disk keep their multiplicity and stay
present, and any newly recorded resource fetch aims at a path absent when
the run started. -/
lemma run_pipeline_covered (page : Nat → List String)
    (fetchOp : String → Nat → Except FetchError String) (fuel : Nat) (st : PipeState)
    (hcov : ∀ off, ∀ u ∈ page off, u ∈ st.checkpointFile) (hfuel : 2 ≤ fuel) :
    ∃ st1, run_pipeline (fun off => Except.ok (page off)) fetchOp fuel st
        = some (Except.ok st1)
      ∧ st1.checkpointFile = st.checkpointFile
      ∧ (∀ p, p ∈ pathsOf st.files →
          countPath st1.files p = countPath st.files p ∧ p ∈ pathsOf st1.files)
      ∧ (∀ x, x ∈ st1.urlsFetched →
          x ∈ st.urlsFetched ∨ destFilename x.2 x.1 ∉ pathsOf st.files) := by
  have hframe := downloadList_frame fetchOp
    (enumFrom 1 (dedupSort st.checkpointFile))
    { files := st.files, failedLog := st.failedLog, fetched := st.urlsFetched }
  rcases scrape_covered page fuel st.checkpointFile hcov hfuel with hs | hs
  · by_cases hurl : dedupSort st.checkpointFile = []
    · refine ⟨{ st with checkpointFile := st.checkpointFile
                        pagesFetched := st.pagesFetched ++ [0] },
        ?_, rfl, fun p hp => ⟨rfl, hp⟩, fun x hx => Or.inl hx⟩
      simp only [run_pipeline, hs]
      rw [if_pos hurl]
    · refine ⟨{ checkpointFile := st.checkpointFile
                files := (download_all fetchOp (dedupSort st.checkpointFile)
                    { files := st.files, failedLog := st.failedLog,
                      fetched := st.urlsFetched }).files
                failedLog := (download_all fetchOp (dedupSort st.checkpointFile)
                    { files := st.files, failedLog := st.failedLog,
                      fetched := st.urlsFetched }).failedLog
                pagesFetched := st.pagesFetched ++ [0]
                urlsFetched := (download_all fetchOp (dedupSort st.checkpointFile)
                    { files := st.files, failedLog := st.failedLog,
                      fetched := st.urlsFetched }).fetched },
        ?_, rfl, ?_, ?_⟩
      · simp only [run_pipeline, hs]
        rw [if_neg hurl]
      · intro p hp
        exact hframe.1 p hp
      · intro x hx
        exact hframe.2 x hx
  · by_cases hurl : dedupSort st.checkpointFile = []
    · refine ⟨{ st with checkpointFile := st.checkpointFile
                        pagesFetched := st.pagesFetched ++ [0, 40] },
        ?_, rfl, fun p hp => ⟨rfl, hp⟩, fun x hx => Or.inl hx⟩
      simp only [run_pipeline, hs]
      rw [if_pos hurl]
    · refine ⟨{ checkpointFile := st.checkpointFile
                files := (download_all fetchOp (dedupSort st.checkpointFile)
                    { files := st.files, failedLog := st.failedLog,
                      fetched := st.urlsFetched }).files
                failedLog := (download_all fetchOp (dedupSort st.checkpointFile)
                    { files := st.files, failedLog := st.failedLog,
                      fetched := st.urlsFetched }).failedLog
                pagesFetched := st.pagesFetched ++ [0, 40]
                urlsFetched := (download_all fetchOp (dedupSort st.checkpointFile)
                    { files := st.files, failedLog := st.failedLog,
                      fetched := st.urlsFetched }).fetched },
        ?_, rfl, ?_, ?_⟩
      · simp only [run_pipeline, hs]
        rw [if_neg hurl]
      · intro p hp
        exact hframe.1 p hp
      · intro x hx
        exact hframe.2 x hx

/-- C6: running the pipeline twice against an unchanged gallery whose
URLs are all pre-populated in the checkpoint file appends nothing to the
checkpoint log (it stays duplicate-free and byte-identical), never
rewrites a file already on disk, and never fetches a resource whose
output file was already present at the start of the respective run. -/
theorem pipeline_idempotent (page : Nat → List String)
    (fetchOp : String → Nat → Except FetchError String) (fuel : Nat) (st : PipeState)
    (hcov : ∀ off, ∀ u ∈ page off, u ∈ st.checkpointFile)
    (hnd : st.checkpointFile.Nodup) (hfuel : 2 ≤ fuel) :
    ∃ st1 st2,
      run_pipeline (fun off => Except.ok (page off)) fetchOp fuel st
        = some (Except.ok st1)
      ∧ run_pipeline (fun off => Except.ok (page off)) fetchOp fuel st1
        = some (Except.ok st2)
      ∧ st1.checkpointFile = st.checkpointFile
      ∧ st2.checkpointFile = st.checkpointFile
      ∧ st2.checkpointFile.Nodup
      ∧ (∀ p, p ∈ pathsOf st.files →
          countPath st1.files p = countPath st.files p
          ∧ countPath st2.files p = countPath st.files p)
      ∧ (∀ x, x ∈ st1.urlsFetched →
          x ∈ st.urlsFetched ∨ destFilename x.2 x.1 ∉ pathsOf st.files)
      ∧ (∀ x, x ∈ st2.urlsFetched →
          x ∈ st1.urlsFetched ∨ destFilename x.2 x.1 ∉ pathsOf st1.files) := by
  obtain ⟨st1, hrun1, hcp1, hfiles1, hfetch1⟩ :=
    run_pipeline_covered page fetchOp fuel st hcov hfuel
  obtain ⟨st2, hrun2, hcp2, hfiles2, hfetch2⟩ :=
    run_pipeline_covered page fetchOp fuel st1 (by rw [hcp1]; exact hcov) hfuel
  refine ⟨st1, st2, hrun1, hrun2, hcp1, hcp2.trans hcp1, ?_, ?_, hfetch1, hfetch2⟩
  · rw [hcp2, hcp1]
    exact hnd
  · intro p hp
    obtain ⟨hc1, hm1⟩ := hfiles1 p hp
    obtain ⟨hc2, _⟩ := hfiles2 p hm1
    exact ⟨hc1, hc2.trans hc1⟩

/-- Witness for C6: a one-URL gallery, its URL already checkpointed, the
file already on disk. -/
theorem pipeline_idempotent_witness :
    ∃ st1 st2,
      run_pipeline (fun _ => Except.ok ["u"]) (fun _ _ => Except.ok "B") 2
          { checkpointFile := ["u"], files := [("0001.jpg", "B")], failedLog := [],
            pagesFetched := [], urlsFetched := [] }
        = some (Except.ok st1)
      ∧ run_pipeline (fun _ => Except.ok ["u"]) (fun _ _ => Except.ok "B") 2 st1
        = some (Except.ok st2)
      ∧ st1.checkpointFile = ["u"]
      ∧ st2.checkpointFile = ["u"]
      ∧ st2.checkpointFile.Nodup
      ∧ (∀ p, p ∈ pathsOf [("0001.jpg", "B")] →
          countPath st1.files p = countPath [("0001.jpg", "B")] p
          ∧ countPath st2.files p = countPath [("0001.jpg", "B")] p)
      ∧ (∀ x, x ∈ st1.urlsFetched →
          x ∈ ([] : List (Nat × String))
          ∨ destFilename x.2 x.1 ∉ pathsOf [("0001.jpg", "B")])
      ∧ (∀ x, x ∈ st2.urlsFetched →
          x ∈ st1.urlsFetched ∨ destFilename x.2 x.1 ∉ pathsOf st1.files) :=
  pipeline_idempotent (fun _ => ["u"]) (fun _ _ => Except.ok "B") 2
    { checkpointFile := ["u"], files := [("0001.jpg", "B")], failedLog := [],
      pagesFetched := [], urlsFetched := [] }
    (fun _ u hu => hu) (by decide) (by decide)

end VK
